import Mathlib

/-!
Shallow embedding of the `dev_rag` vectorizer core
(`src/dev_rag/dev_rag/models.py` and `src/dev_rag/dev_rag/vectorizer.py`):
the chunk data model, the shared file filter, the per-dialect chunk
builders (Dart, Markdown, JSON, Rust, TypeScript), the brace-matching
scanner, and the batched embedding-and-upload pipeline. External
collaborators (the md5 hash, the embedding service, the Qdrant upsert,
`json.dumps`) are passed in as function parameters; everything that is
computed by the repository's own code is translated definition by
definition from the source.
-/

namespace DevRag

/-- Whitespace characters of Python `str.strip` and of the regex class
(ASCII range, which is all the inputs considered here use). -/
def isPySpace (c : Char) : Bool :=
  c = ' ' || c = '\t' || c = '\n' || c = '\r' || c = '\x0b' || c = '\x0c'

/-- Python `str.strip()` on a character list. -/
def pyStripList (cs : List Char) : List Char :=
  ((cs.dropWhile isPySpace).reverse.dropWhile isPySpace).reverse

/-- Python `str.strip()`. -/
def pyStrip (s : String) : String := String.mk (pyStripList s.data)

/-- Python slicing `s[:n]` (counted in code points, as Python does). -/
def pyTake (n : Nat) (s : String) : String := String.mk (s.data.take n)

/-- Python substring test `sub in hay` at the character-list level. -/
def listInfixOf (needle hay : List Char) : Bool :=
  (List.range (hay.length + 1)).any (fun i => needle.isPrefixOf (hay.drop i))

/-- Python substring test `sub in hay`. -/
def pyIn (sub hay : String) : Bool := listInfixOf sub.data hay.data

/-- Python `str.split(sep)` for a one-character separator, list level.
Always returns a non-empty list of pieces. -/
def splitOnChar (sep : Char) : List Char → List (List Char)
  | [] => [[]]
  | c :: rest =>
    match splitOnChar sep rest with
    | [] => [[]]
    | l :: ls => if c = sep then [] :: l :: ls else (c :: l) :: ls

/-- Python `content.split('\n')`. -/
def pySplitLines (s : String) : List String :=
  (splitOnChar '\n' s.data).map String.mk

/-- Rightmost index of a character in a list (Python `str.rfind`,
returning `none` instead of `-1`). -/
def rfindAux (c : Char) : List Char → Nat → Option Nat
  | [], _ => none
  | x :: xs, i =>
    match rfindAux c xs (i + 1) with
    | some j => some j
    | none => if x = c then some i else none

/-- Final path component (pathlib `Path.name`): the part after the last
slash. -/
def pathName (p : String) : String :=
  match rfindAux '/' p.data 0 with
  | some i => String.mk (p.data.drop (i + 1))
  | none => p

/-- Pathlib `Path.suffix`: the substring of the name from its last dot,
but only when that dot is neither the first nor the last character of the
name; otherwise the empty string.  This is CPython's definition, so a
name such as `user.g.dart` has suffix `.dart`, never `.g.dart`. -/
def pathSuffix (p : String) : String :=
  let n := (pathName p).data
  match rfindAux '.' n 0 with
  | some i => if 0 < i ∧ i < n.length - 1 then String.mk (n.drop i) else ""
  | none => ""

/-- Model of `VectorizationConfig` from `models.py`, with the source defaults. -/
structure VectorizationConfig where
  qdrant_url : String := "http://localhost:6333"
  collection_name : String := "atproto-dart"
  embedding_model : String := "BAAI/bge-small-en-v1.5"
  embedding_dimensions : Nat := 384
  batch_size : Nat := 100
  max_doc_length : Nat := 1000
  max_code_length : Nat := 1500
  include_tests : Bool := false
  include_generated : Bool := false
  max_memory_percent : Nat := 75
  store_batch_size : Nat := 100
deriving DecidableEq

/-- The all-defaults configuration (`VectorizationConfig()`). -/
def defaultConfig : VectorizationConfig := {}

/-- Model of `ChunkMetadata` from `models.py`. -/
structure ChunkMetadata where
  type : String
  name : String
  file_path : String
  signature : String
  code : String := ""
  line_start : Option Nat := none
  line_end : Option Nat := none
deriving DecidableEq

/-- Model of `DocumentChunk` from `models.py`. -/
structure DocumentChunk where
  type : String
  name : String
  file_path : String
  documentation : String := ""
  code : String := ""
  signature : String
  metadata : ChunkMetadata
deriving DecidableEq

/-- Model of `DocumentChunk.get_embedding_text` from `models.py`. -/
def DocumentChunk.get_embedding_text (c : DocumentChunk) : String :=
  let parts := [c.signature]
  let parts := if pyStrip c.documentation != "" then parts ++ [c.documentation] else parts
  let parts := if c.name != "" && !(pyIn c.name c.signature) then parts ++ [c.name] else parts
  String.intercalate " " parts

/-- Model of `DocumentChunk.get_information_text` from `models.py`. -/
def DocumentChunk.get_information_text (c : DocumentChunk) : String :=
  c.signature ++ ": " ++ c.documentation

/-- The string hashed into a point id in
`_vectorize_and_upload_with_details`: the f-string
`"{chunk.file_path}:{chunk.name}:{chunk.type}"`. -/
def pointIdInput (c : DocumentChunk) : String :=
  c.file_path ++ ":" ++ c.name ++ ":" ++ c.type

/-- The Qdrant point id: `hashlib.md5(...).hexdigest()` applied to
`pointIdInput`.  The md5 hex digest is an external deterministic function
of the hashed string, so it is taken as a parameter. -/
def pointId (md5 : String → String) (c : DocumentChunk) : String :=
  md5 (pointIdInput c)

/-- Model of `_should_process_file` from `vectorizer.py`. -/
def shouldProcessFile (cfg : VectorizationConfig) (path : String) : Bool :=
  if !cfg.include_tests && pyIn "test" path then false
  else if !cfg.include_generated && pathSuffix path == ".g.dart" then false
  else if pyIn "example" path && !cfg.include_tests then false
  else true

/-- The per-dialect candidate file lists gathered by the glob scan in
`_extract_chunks_with_progress`. -/
structure FileLists where
  dart : List String
  md : List String
  mdx : List String
  json : List String
  yaml : List String
  rust : List String
  js : List String
  ts : List String
  svelte : List String
  html : List String
deriving DecidableEq

/-- The filtering stage of `_extract_chunks_with_progress` (lines
293-301): `_should_process_file` is applied to the Dart, JSON, YAML,
Rust, JS, TS, Svelte and HTML lists, while the Markdown and MDX lists
are passed through unfiltered, exactly as in the source. -/
def filterScannedFiles (cfg : VectorizationConfig) (fl : FileLists) : FileLists :=
  { dart := fl.dart.filter (shouldProcessFile cfg)
  , md := fl.md
  , mdx := fl.mdx
  , json := fl.json.filter (shouldProcessFile cfg)
  , yaml := fl.yaml.filter (shouldProcessFile cfg)
  , rust := fl.rust.filter (shouldProcessFile cfg)
  , js := fl.js.filter (shouldProcessFile cfg)
  , ts := fl.ts.filter (shouldProcessFile cfg)
  , svelte := fl.svelte.filter (shouldProcessFile cfg)
  , html := fl.html.filter (shouldProcessFile cfg) }

/-- C1: the store record identifier is a pure function of the triple
(file_path, name, kind/type): any two chunks agreeing on those three
fields receive the same id string for any (deterministic) md5 digest
function, independent of documentation, code, signature and metadata. -/
theorem C1_chunk_id_pure_function (md5 : String → String) (c₁ c₂ : DocumentChunk)
    (hf : c₁.file_path = c₂.file_path) (hn : c₁.name = c₂.name)
    (ht : c₁.type = c₂.type) :
    pointId md5 c₁ = pointId md5 c₂ := by
  unfold pointId pointIdInput
  rw [hf, hn, ht]

/-- Witness for C1: two concrete chunks that differ in documentation,
code, signature and metadata but share (file_path, name, type) get the
same id under a concrete digest function. -/
theorem C1_chunk_id_pure_function_witness :
    pointId (fun s => s ++ "!")
      { type := "class", name := "Foo", file_path := "lib/a.dart",
        documentation := "old docs", code := "class Foo \x7b\x7d",
        signature := "class Foo",
        metadata := { type := "class", name := "Foo", file_path := "lib/a.dart",
                      signature := "class Foo", line_start := some 1 } }
    = pointId (fun s => s ++ "!")
      { type := "class", name := "Foo", file_path := "lib/a.dart",
        documentation := "new docs", code := "",
        signature := "abstract class Foo",
        metadata := { type := "class", name := "Foo", file_path := "lib/a.dart",
                      signature := "abstract class Foo", line_start := some 7 } } :=
  C1_chunk_id_pure_function (fun s => s ++ "!") _ _ rfl rfl rfl

/-- C3: the claim says a `.g.dart` file is excluded whenever
`include_generated = false`; but pathlib's `suffix` of `user.g.dart` is
`.dart`, so the comparison `file_path.suffix == ".g.dart"` in
`_should_process_file` can never succeed and the file is processed.  The
code contradicts its own comment (`Skip generated files unless
explicitly included`), so this is a code bug; this theorem evaluates the
code at the failing input. -/
theorem C3_generated_filter_code_bug_eval :
    shouldProcessFile defaultConfig "lib/models/user.g.dart" = true ∧
    pathSuffix "lib/models/user.g.dart" = ".dart" ∧
    defaultConfig.include_generated = false := by
  refine ⟨by decide, by decide, rfl⟩

/-- C4: the claim says the shared filter runs on every candidate file of
every dialect before extraction; but the filtering stage of
`_extract_chunks_with_progress` never filters the Markdown and MDX
lists, contradicting its own comment (`apply filtering to all file
types`).  This theorem evaluates the code at a failing input: a markdown
file under a `test` directory is rejected by the filter, yet survives
the selection stage and is handed to the markdown extractor. -/
theorem C4_markdown_unfiltered_code_bug_eval :
    shouldProcessFile defaultConfig "docs/test/guide.md" = false ∧
    (filterScannedFiles defaultConfig
      { dart := [], md := ["docs/test/guide.md"], mdx := [], json := [],
        yaml := [], rust := [], js := [], ts := [], svelte := [],
        html := [] }).md = ["docs/test/guide.md"] := by
  refine ⟨by decide, rfl⟩

/-- Leading run of `#` characters of a line. -/
def countLeadingHash : List Char → Nat
  | '#' :: rest => countLeadingHash rest + 1
  | _ => 0

/-- The heading recognizer of `_extract_markdown_chunks`: Python
`re.match(r'^(#{1,3})\s+(.+)$', line)`.  A line matches exactly when its
leading run of hashes has length 1 to 3 (a longer run leaves a `#` where
whitespace is required), the next character is whitespace, and at least
one further character follows.  The returned title is `group(2).strip()`,
which equals the stripped remainder after the hashes since `group(2)`
starts after some of the whitespace run. -/
def parseHeading (line : String) : Option (Nat × String) :=
  let cs := line.data
  let r := countLeadingHash cs
  match cs.drop r with
  | c :: _ :: _ =>
    if 1 ≤ r ∧ r ≤ 3 ∧ isPySpace c then
      some (r, pyStrip (String.mk (cs.drop r)))
    else none
  | _ => none

/-- The inner `while` of `_extract_markdown_chunks`: starting at line
index `j`, advance until a heading of level `≤ level` or the end of the
file; `ls` is `lines.drop j`. -/
def nbAux (level : Nat) : List String → Nat → Nat
  | [], j => j
  | l :: rest, j =>
    match parseHeading l with
    | some (lv, _) => if lv ≤ level then j else nbAux level rest (j + 1)
    | none => nbAux level rest (j + 1)

/-- Index of the next heading of level `≤ level` at or after `j`, or the
number of lines. -/
def nextBoundary (lines : List String) (level j : Nat) : Nat :=
  nbAux level (lines.drop j) j

/-- Python list slice `l[a:b]`. -/
def sliceList {α : Type} (a b : Nat) (l : List α) : List α :=
  (l.take b).drop a

/-- The chunk (if any) contributed by line `i` of a markdown file in
`_extract_markdown_chunks`: a heading line opens a section running to
the next heading of equal-or-shallower level; empty bodies are
skipped. -/
def mdChunkAt (cfg : VectorizationConfig) (relPath : String)
    (lines : List String) (i : Nat) : Option DocumentChunk :=
  match lines.get? i with
  | none => none
  | some line =>
    match parseHeading line with
    | none => none
    | some (level, title) =>
      let j := nextBoundary lines level (i + 1)
      let body := pyStrip (String.intercalate "\n" (sliceList (i + 1) j lines))
      if body = "" then none
      else
        some { type := "documentation", name := title, file_path := relPath
             , documentation := pyTake cfg.max_doc_length body
             , code := "", signature := title
             , metadata := { type := "documentation", name := title
                           , file_path := relPath, signature := title
                           , code := ""
                           , line_start := some (i + 1), line_end := some j } }

/-- Model of `_extract_markdown_chunks` from `vectorizer.py`. -/
def extractMarkdownChunks (cfg : VectorizationConfig) (relPath content : String) :
    List DocumentChunk :=
  let lines := pySplitLines content
  (List.range lines.length).filterMap (mdChunkAt cfg relPath lines)

/-- The markdown input of the C6 test case. -/
def c6Input : String := "# A\nfoo\n## B\nbar\n# C\nbaz"

/-- C6 counterexample: on `"# A\nfoo\n## B\nbar\n# C\nbaz"` the heading
extractor does produce three chunks named A, B, C, but A's body is
`"foo\n## B\nbar"` — the nested section B does leak into A's body — so
the claimed bodies `("foo", "bar", "baz")` are wrong. -/
theorem C6_heading_bodies_cex :
    ¬ ((extractMarkdownChunks defaultConfig "README.md" c6Input).map
        (fun c => (c.name, c.documentation))
      = [("A", "foo"), ("B", "bar"), ("C", "baz")]) := by
  decide

/-- C6 amended: on `"# A\nfoo\n## B\nbar\n# C\nbaz"` the heading
extractor yields exactly three chunks named A, B, C with bodies
`"foo\n## B\nbar"`, `"bar"` and `"baz"`: a deeper heading and its lines
remain part of the enclosing section's body, while B and C themselves
are bounded by the next heading of equal-or-shallower level. -/
theorem C6_heading_bodies_amended :
    (extractMarkdownChunks defaultConfig "README.md" c6Input).map
        (fun c => (c.name, c.documentation))
      = [("A", "foo\n## B\nbar"), ("B", "bar"), ("C", "baz")] := by
  decide

/-- JSON values as parsed by Python's `json.loads`; object fields keep
insertion order, as Python dicts do. -/
inductive Json where
  | jnull : Json
  | jbool : Bool → Json
  | jnum : Int → Json
  | jstr : String → Json
  | jarr : List Json → Json
  | jobj : List (String × Json) → Json

/-- Dict lookup (`d.get(k)` / `k in d`). -/
def jlookup (k : String) : List (String × Json) → Option Json
  | [] => none
  | (k', v) :: rest => if k' = k then some v else jlookup k rest

/-- String value of a field, for the `id` / `description` reads of
`_extract_json_chunks` (on the inputs considered those fields are
strings; a missing field falls back to the given default). -/
def jstrField (k : String) (fields : List (String × Json)) (dflt : String) : String :=
  match jlookup k fields with
  | some (Json.jstr s) => s
  | _ => dflt

/-- Model of `_extract_json_chunks` from `vectorizer.py`, after `json.loads`
succeeded with value `doc`.  `dumps` stands for `json.dumps(-, indent=2)`
(an external serializer), `stem` for `file_path.stem`.  A non-object
document makes `content.get` raise, which the `except` turns into zero
chunks; a non-object `defs` makes `.items()` raise after the main chunk
was appended. -/
def extractJsonChunks (dumps : Json → String) (cfg : VectorizationConfig)
    (stem relPath : String) (doc : Json) : List DocumentChunk :=
  match doc with
  | Json.jobj fields =>
    let lexicon_id := jstrField "id" fields stem
    let description := jstrField "description" fields ""
    let mainCode := pyTake cfg.max_code_length (dumps doc)
    let main : DocumentChunk :=
      { type := "lexicon", name := lexicon_id, file_path := relPath
      , documentation := description, code := mainCode
      , signature := "Lexicon: " ++ lexicon_id
      , metadata := { type := "lexicon", name := lexicon_id
                    , file_path := relPath
                    , signature := "Lexicon: " ++ lexicon_id
                    , code := mainCode } }
    let defChunks :=
      match jlookup "defs" fields with
      | some (Json.jobj defs) =>
        defs.filterMap (fun dv =>
          match dv.2 with
          | Json.jobj dfields =>
            match jlookup "description" dfields with
            | some _ =>
              let dname := lexicon_id ++ "#" ++ dv.1
              let dcode := pyTake cfg.max_code_length (dumps dv.2)
              some { type := "lexicon", name := dname, file_path := relPath
                   , documentation := jstrField "description" dfields ""
                   , code := dcode, signature := dname
                   , metadata := { type := "lexicon", name := dname
                                 , file_path := relPath, signature := dname
                                 , code := dcode } }
            | none => none
          | _ => none)
      | _ => []
    main :: defChunks
  | _ => []

/-- The JSON document of the C8 test case:
`{"id": "com.example.foo", "description": "d",
  "defs": {"bar": {"description": "b"}}}`. -/
def c8Doc : Json :=
  Json.jobj
    [ ("id", Json.jstr "com.example.foo")
    , ("description", Json.jstr "d")
    , ("defs", Json.jobj [("bar", Json.jobj [("description", Json.jstr "b")])]) ]

/-- C8: on the document above the JSON extractor yields exactly two
chunks, the whole-document chunk named `com.example.foo` followed by the
definition chunk named `com.example.foo#bar`, for every serializer and
configuration. -/
theorem C8_json_extractor_two_chunks (dumps : Json → String)
    (cfg : VectorizationConfig) :
    (extractJsonChunks dumps cfg "foo" "lexicons/com/example/foo.json" c8Doc).map
        (fun c => c.name)
      = ["com.example.foo", "com.example.foo#bar"] := by
  rfl

/-- Brace contribution of one character to the depth counter. -/
def braceDelta (c : Char) : Int :=
  if c = '{' then 1 else if c = '}' then -1 else 0

/-- The forward brace-matching loop shared by `_extract_rust_chunks`,
`_extract_js_chunks` and the function/class branch of
`_extract_ts_chunks`: scan the characters after the match start keeping
`brace_count` and `found_opening`; on a closing brace that brings the
count to zero after an opening brace has been seen, stop and return the
exclusive end offset (relative to the match start).  `none` means the
loop ran off the end of the content without breaking. -/
def findBraceEnd : List Char → Int → Bool → Option Nat
  | [], _, _ => none
  | c :: rest, count, found =>
    if c = '{' then (findBraceEnd rest (count + 1) true).map (· + 1)
    else if c = '}' then
      if found && (count - 1 == 0) then some 1
      else (findBraceEnd rest (count - 1) found).map (· + 1)
    else (findBraceEnd rest count found).map (· + 1)

/-- Emission decision of `_extract_rust_chunks`: a chunk is produced iff
`found_opening` is true after the loop; when the loop never broke, the
end offset keeps its initial value `start_pos`, giving relative end 0
(and hence an empty code block). -/
def rustEmitEnd (cs : List Char) : Option Nat :=
  match findBraceEnd cs 0 false with
  | some e => some e
  | none => if cs.contains '{' then some 0 else none

/-- Net brace depth of a character list. -/
def braceDepth (cs : List Char) : Int := (cs.map braceDelta).sum

/-- Follows the spec's words: position `e` (relative, exclusive) stops
the scan when the last scanned character is a closing brace, the brace
depth of the scanned prefix returns to zero (counting from `count`), and
an opening brace has been seen (`found` records openings seen before the
scanned region). -/
def specStopAt (cs : List Char) (count : Int) (found : Bool) (e : Nat) : Bool :=
  ((cs.take e).getLast? == some '}') && (count + braceDepth (cs.take e) == 0)
    && (found || (cs.take e).contains '{')

/-- Follows the spec's words: the region end is the FIRST position where
the stop condition holds, if any. -/
def specFindEnd (cs : List Char) : Option Nat :=
  ((List.range cs.length).find? (fun k => specStopAt cs 0 false (k + 1))).map (· + 1)

lemma find?_cons_true {α : Type} (p : α → Bool) (a : α) (l : List α)
    (h : p a = true) : (a :: l).find? p = some a := by
  simp only [List.find?, h]

lemma find?_cons_false {α : Type} (p : α → Bool) (a : α) (l : List α)
    (h : p a = false) : (a :: l).find? p = l.find? p := by
  simp only [List.find?, h]

lemma find?_congr {α : Type} {p q : α → Bool} :
    ∀ (l : List α), (∀ x ∈ l, p x = q x) → l.find? p = l.find? q := by
  intro l h
  induction l with
  | nil => rfl
  | cons x xs ih =>
    have hx := h x (List.mem_cons_self x xs)
    cases hq : q x with
    | true => rw [find?_cons_true p x xs (hx.trans hq), find?_cons_true q x xs hq]
    | false =>
      rw [find?_cons_false p x xs (hx.trans hq), find?_cons_false q x xs hq]
      exact ih (fun y hy => h y (List.mem_cons_of_mem x hy))

lemma find?_map_add_one {p : Nat → Bool} :
    ∀ (l : List Nat),
      (l.map (· + 1)).find? p = (l.find? (fun k => p (k + 1))).map (· + 1) := by
  intro l
  induction l with
  | nil => rfl
  | cons x xs ih =>
    rw [List.map_cons]
    cases h : p (x + 1) with
    | true =>
      rw [find?_cons_true p (x + 1) (xs.map (· + 1)) h,
        find?_cons_true (fun k => p (k + 1)) x xs h]
      rfl
    | false =>
      rw [find?_cons_false p (x + 1) (xs.map (· + 1)) h,
        find?_cons_false (fun k => p (k + 1)) x xs h, ih]

lemma range_succ_eq_map' (n : Nat) :
    List.range (n + 1) = 0 :: (List.range n).map (· + 1) := by
  have h : Nat.succ = (fun k => k + 1) := funext fun _ => rfl
  rw [List.range_succ_eq_map, h]

lemma findBraceEnd_open (rest : List Char) (count : Int) (found : Bool) :
    findBraceEnd ('{' :: rest) count found
      = (findBraceEnd rest (count + 1) true).map (· + 1) := by
  simp [findBraceEnd]

lemma findBraceEnd_close (rest : List Char) (count : Int) (found : Bool) :
    findBraceEnd ('}' :: rest) count found
      = if found && (count - 1 == 0) then some 1
        else (findBraceEnd rest (count - 1) found).map (· + 1) := by
  simp [findBraceEnd]

lemma findBraceEnd_other (c : Char) (rest : List Char) (count : Int) (found : Bool)
    (h1 : c ≠ '{') (h2 : c ≠ '}') :
    findBraceEnd (c :: rest) count found
      = (findBraceEnd rest count found).map (· + 1) := by
  show (if c = '{' then (findBraceEnd rest (count + 1) true).map (· + 1)
        else if c = '}' then
          if found && (count - 1 == 0) then some 1
          else (findBraceEnd rest (count - 1) found).map (· + 1)
        else (findBraceEnd rest count found).map (· + 1)) = _
  rw [if_neg h1, if_neg h2]

lemma specStopAt_cons (c : Char) (rest : List Char) (count : Int) (found : Bool)
    (k : Nat) (hk : k < rest.length) :
    specStopAt (c :: rest) count found (k + 2)
      = specStopAt rest (count + braceDelta c) (found || (c == '{')) (k + 1) := by
  have hpos : 0 < (rest.take (k + 1)).length := by
    rw [List.length_take]; omega
  obtain ⟨x, xs, hxx⟩ : ∃ x xs, rest.take (k + 1) = x :: xs := by
    cases h : rest.take (k + 1) with
    | nil => rw [h] at hpos; exact absurd hpos (by simp)
    | cons x xs => exact ⟨x, xs, rfl⟩
  show specStopAt (c :: rest) count found ((k + 1) + 1) = _
  unfold specStopAt
  rw [List.take_succ_cons, hxx, List.getLast?_cons_cons]
  simp only [braceDepth, List.map_cons, List.sum_cons, List.contains_cons]
  have hadd : ∀ D : Int,
      count + (braceDelta c + D) = (count + braceDelta c) + D := fun D => by ring
  rw [hadd]
  by_cases hc : c = '{'
  · subst hc
    cases found <;> simp [Bool.or_assoc]
  · have h1 : ('{' == c) = false := by
      cases hb : ('{' == c)
      · rfl
      · exact absurd (beq_iff_eq.mp hb).symm hc
    have h2 : (c == '{') = false := by
      cases hb : (c == '{')
      · rfl
      · exact absurd (beq_iff_eq.mp hb) hc
    rw [h1, h2]
    cases found <;> simp [Bool.or_assoc]

lemma findBraceEnd_eq_specFind (cs : List Char) : ∀ (count : Int) (found : Bool),
    findBraceEnd cs count found
      = ((List.range cs.length).find?
          (fun k => specStopAt cs count found (k + 1))).map (· + 1) := by
  induction cs with
  | nil => intro count found; rfl
  | cons c rest ih =>
    intro count found
    have hmap :
        (((List.range rest.length).map (· + 1)).find?
            (fun k => specStopAt (c :: rest) count found (k + 1)))
          = ((List.range rest.length).find?
              (fun k => specStopAt rest (count + braceDelta c)
                (found || (c == '{')) (k + 1))).map (· + 1) := by
      rw [find?_map_add_one]
      rw [find?_congr (List.range rest.length)
        (fun k hk => specStopAt_cons c rest count found k (List.mem_range.mp hk))]
    rw [List.length_cons, range_succ_eq_map']
    by_cases hc : c = '{'
    · subst hc
      have h0 : specStopAt ('{' :: rest) count found (0 + 1) = false := by
        unfold specStopAt
        simp [List.take_succ_cons]
      rw [findBraceEnd_open,
        find?_cons_false (fun k => specStopAt ('{' :: rest) count found (k + 1)) 0
          ((List.range rest.length).map (· + 1)) h0, hmap]
      have hb1 : braceDelta '{' = 1 := rfl
      have hb2 : (found || ('{' == '{')) = true := by cases found <;> rfl
      rw [hb1, hb2, ih (count + 1) true, Option.map_map]
    · by_cases hc2 : c = '}'
      · subst hc2
        by_cases hbr : (found && (count - 1 == 0)) = true
        · have hfd : found = true := by
            cases found
            · simp at hbr
            · rfl
          have hcz : count - 1 = 0 := by
            rw [hfd] at hbr
            simpa using hbr
          have h0 : specStopAt ('}' :: rest) count found (0 + 1) = true := by
            unfold specStopAt
            simp only [List.take_succ_cons, List.take_zero]
            have h3 : count + braceDepth ['}'] = 0 := by
              simp only [braceDepth, List.map_cons, List.map_nil, List.sum_cons,
                List.sum_nil]
              have : braceDelta '}' = -1 := rfl
              rw [this]; omega
            simp [hfd, h3]
          rw [findBraceEnd_close, if_pos hbr,
            find?_cons_true (fun k => specStopAt ('}' :: rest) count found (k + 1)) 0
              ((List.range rest.length).map (· + 1)) h0]
          rfl
        · have hbr' : (found && (count - 1 == 0)) = false := by
            cases h : (found && (count - 1 == 0))
            · rfl
            · exact absurd h hbr
          have h0 : specStopAt ('}' :: rest) count found (0 + 1) = false := by
            unfold specStopAt
            simp only [List.take_succ_cons, List.take_zero]
            have h3 : count + braceDepth ['}'] = count - 1 := by
              simp only [braceDepth, List.map_cons, List.map_nil, List.sum_cons,
                List.sum_nil]
              have : braceDelta '}' = -1 := rfl
              rw [this]; omega
            rw [h3]
            cases found
            · simp
            · simp only [Bool.true_and] at hbr'
              simp [hbr']
          rw [findBraceEnd_close, if_neg hbr,
            find?_cons_false (fun k => specStopAt ('}' :: rest) count found (k + 1)) 0
              ((List.range rest.length).map (· + 1)) h0, hmap]
          have hd2 : count + braceDelta '}' = count - 1 := by
            have : braceDelta '}' = -1 := rfl
            rw [this]; omega
          have hf : (found || ('}' == '{')) = found := by cases found <;> rfl
          rw [hd2, hf, ih (count - 1) found, Option.map_map]
      · have hcb : (c == '}') = false := by
          cases hb : (c == '}')
          · rfl
          · exact absurd (beq_iff_eq.mp hb) hc2
        have h0 : specStopAt (c :: rest) count found (0 + 1) = false := by
          unfold specStopAt
          simp only [List.take_succ_cons, List.take_zero]
          simp [hcb]
        rw [findBraceEnd_other c rest count found hc hc2,
          find?_cons_false (fun k => specStopAt (c :: rest) count found (k + 1)) 0
            ((List.range rest.length).map (· + 1)) h0, hmap]
        have hd : count + braceDelta c = count := by
          unfold braceDelta
          rw [if_neg hc, if_neg hc2]
          omega
        have hcb2 : (c == '{') = false := by
          cases hb : (c == '{')
          · rfl
          · exact absurd (beq_iff_eq.mp hb) hc
        have hf : (found || (c == '{')) = found := by
          rw [hcb2]; cases found <;> rfl
        rw [hd, hf, ih count found, Option.map_map]

lemma findBraceEnd_none_of_no_open (cs : List Char)
    (hno : cs.contains '{' = false) : findBraceEnd cs 0 false = none := by
  rw [findBraceEnd_eq_specFind cs 0 false]
  cases hfind : (List.range cs.length).find? (fun k => specStopAt cs 0 false (k + 1)) with
  | none => rfl
  | some k =>
    exfalso
    have hstop := List.find?_some hfind
    unfold specStopAt at hstop
    have hcont : (cs.take (k + 1)).contains '{' = true := by
      have := (Bool.and_eq_true _ _).mp hstop
      simpa using this.2
    have hmem : '{' ∈ cs.take (k + 1) := by
      simpa using hcont
    have hmem' : '{' ∈ cs := (List.take_sublist (k + 1) cs).mem hmem
    rw [show cs.contains '{' = true by simpa using hmem'] at hno
    simp at hno

/-- The Rust input of the C7 test case:
`"fn f() { if (x) { return 1; } return 2; }"`. -/
def c7Input : String :=
  "fn f() \x7b if (x) \x7b return 1; \x7d return 2; \x7d"

/-- C7: the brace scanner locates the region from the match start to the
FIRST position where a closing brace returns the depth counter to zero
after at least one opening brace has been seen (the `specFindEnd`
characterization, proved equal to the source loop for every input); on
the C7 test input the region spans the entire outer-brace block
(relative end = the full input length, not the inner `if` block); and
when no opening brace is ever found after the match, no chunk is emitted
for that match. -/
theorem C7_brace_scanner_spec :
    (∀ cs : List Char, findBraceEnd cs 0 false = specFindEnd cs) ∧
    rustEmitEnd c7Input.data = some c7Input.data.length ∧
    (∀ cs : List Char, cs.contains '{' = false → rustEmitEnd cs = none) := by
  refine ⟨fun cs => findBraceEnd_eq_specFind cs 0 false, by decide, ?_⟩
  intro cs hno
  unfold rustEmitEnd
  rw [findBraceEnd_none_of_no_open cs hno, hno]
  rfl

/-- Witness for C7: the characterization, the outer-block example, and
the no-opening-brace case, each instantiated at concrete inputs. -/
theorem C7_brace_scanner_spec_witness :
    findBraceEnd "ab".data 0 false = specFindEnd "ab".data ∧
    rustEmitEnd c7Input.data = some c7Input.data.length ∧
    rustEmitEnd "fn f(x);".data = none :=
  ⟨C7_brace_scanner_spec.1 "ab".data, C7_brace_scanner_spec.2.1,
    C7_brace_scanner_spec.2.2 "fn f(x);".data (by decide)⟩

/-- Python's `l[-10:]`. -/
def lastTen {α : Type} (l : List α) : List α := l.drop (l.length - 10)

/-- Line number of an offset: newline count of the prefix plus one
(`content[:pos].count('\n') + 1`). -/
def lineNumberAt (content : List Char) (pos : Nat) : Nat :=
  (content.take pos).count '\n' + 1

/-- Doc-comment collection of `_extract_rust_chunks`: the at most 10
lines before the match start are walked in reverse; `///` and `//!`
lines are collected (marker stripped), `/*` and `*/` lines and blank
lines are skipped, any other line stops the walk.  The argument is the
reversed line list; the result is in original order (Python's
`insert(0, ...)`). -/
def rustDocLines : List String → List String
  | [] => []
  | l :: rest =>
    let s := pyStrip l
    if ("///".data).isPrefixOf s.data || ("//!".data).isPrefixOf s.data then
      rustDocLines rest ++ [pyStrip (String.mk (s.data.drop 3))]
    else if ("/*".data).isPrefixOf s.data || ("*/".data).isPrefixOf s.data then
      rustDocLines rest
    else if s = "" then rustDocLines rest
    else []

/-- Doc-comment collection of `_extract_js_chunks` /
`_extract_ts_chunks`: `*` lines (but not `*/`) are collected (marker
stripped), a `/**` line stops the walk keeping what was collected, blank
lines are skipped, any other line stops the walk. -/
def jsDocLines : List String → List String
  | [] => []
  | l :: rest =>
    let s := pyStrip l
    if ("*".data).isPrefixOf s.data && !(("*/".data).isPrefixOf s.data) then
      jsDocLines rest ++ [pyStrip (String.mk (s.data.drop 1))]
    else if ("/**".data).isPrefixOf s.data then []
    else if s = "" then jsDocLines rest
    else []

/-- The per-match body of `_extract_rust_chunks` (the loop body of
`_extract_js_chunks` is character-for-character the same): given the
regex-provided name, match text (used as the signature) and kind and the
match start offset, run the brace loop and build the chunk exactly when
`found_opening` holds.  The regex machinery is external; its outputs are
parameters.  No truncation is applied anywhere in this extractor. -/
def rustChunkAt (content : List Char) (relPath name matchText ctype : String)
    (startPos : Nat) : Option DocumentChunk :=
  match rustEmitEnd (content.drop startPos) with
  | none => none
  | some e =>
    let endPos := startPos + e
    let codeBlock := String.mk ((content.take endPos).drop startPos)
    let docu := String.intercalate "\n"
      (rustDocLines ((lastTen (pySplitLines (String.mk (content.take startPos)))).reverse))
    some { type := ctype, name := name, file_path := relPath
         , documentation := docu, code := codeBlock, signature := matchText
         , metadata := { type := ctype, name := name, file_path := relPath
                       , signature := matchText, code := codeBlock
                       , line_start := some (lineNumberAt content startPos)
                       , line_end := some (lineNumberAt content endPos) } }

/-- The interface/type end scan of `_extract_ts_chunks`: the brace loop,
except that a semicolon seen before any opening brace also ends the
region. -/
def tsFindEndIT : List Char → Int → Bool → Option Nat
  | [], _, _ => none
  | c :: rest, count, found =>
    if c = '{' then (tsFindEndIT rest (count + 1) true).map (· + 1)
    else if c = '}' then
      if found && (count - 1 == 0) then some 1
      else (tsFindEndIT rest (count - 1) found).map (· + 1)
    else if c = ';' ∧ found = false then some 1
    else (tsFindEndIT rest count found).map (· + 1)

/-- The per-match body of `_extract_ts_chunks`: interfaces and types use
the semicolon-aware end scan, other kinds the shared brace loop; in both
branches `end_pos` keeps its initial value `start_pos` when the loop
never breaks, and the chunk is emitted only under `end_pos > start_pos`,
i.e. only when the loop broke.  No truncation is applied. -/
def tsChunkAt (content : List Char) (relPath name matchText ctype : String)
    (startPos : Nat) : Option DocumentChunk :=
  let endRel :=
    if ctype = "interface" ∨ ctype = "type" then
      tsFindEndIT (content.drop startPos) 0 false
    else findBraceEnd (content.drop startPos) 0 false
  match endRel with
  | none => none
  | some e =>
    let endPos := startPos + e
    let codeBlock := String.mk ((content.take endPos).drop startPos)
    let docu := String.intercalate "\n"
      (jsDocLines ((lastTen (pySplitLines (String.mk (content.take startPos)))).reverse))
    some { type := ctype, name := name, file_path := relPath
         , documentation := docu, code := codeBlock, signature := matchText
         , metadata := { type := ctype, name := name, file_path := relPath
                       , signature := matchText, code := codeBlock
                       , line_start := some (lineNumberAt content startPos)
                       , line_end := some (lineNumberAt content endPos) } }

/-- The backward walk of `_extract_dart_chunks` to the start of the line
containing the match start (`while doc_start > 0 and
content[doc_start-1] != '\n'`). -/
def lineStartBefore (content : List Char) : Nat → Nat
  | 0 => 0
  | i + 1 => if content.get? i = some '\n' then i + 1 else lineStartBefore content i

/-- The `///` doc-comment collection of `_extract_dart_chunks`: lines of
`content[doc_start:start]` whose stripped text starts with `///`,
stripped of the marker, joined by newlines. -/
def dartDocString (content : List Char) (docStart start : Nat) : String :=
  String.intercalate "\n"
    ((pySplitLines (String.mk ((content.take start).drop docStart))).filterMap (fun l =>
      if ("///".data).isPrefixOf (pyStripList l.data) then
        some (pyStrip (String.mk ((pyStripList l.data).drop 3)))
      else none))

/-- The class-end loop of `_extract_dart_chunks`: `brace_count` starts
at 1 just after the match end and `class_end` is set to the position
after each character that brings the count to zero; it keeps its initial
value `match.end()` when the count never reaches zero. -/
def dartClassEndAux : List Char → Nat → Int → Nat → Nat
  | [], _, _, ce => ce
  | c :: rest, pos, bc, ce =>
    if bc ≤ 0 then ce
    else
      let bc' := if c = '{' then bc + 1 else if c = '}' then bc - 1 else bc
      let ce' := if bc' = 0 then pos + 1 else ce
      dartClassEndAux rest (pos + 1) bc' ce'

/-- Entry point of the class-end loop. -/
def dartClassEnd (content : List Char) (matchEnd : Nat) : Nat :=
  dartClassEndAux (content.drop matchEnd) matchEnd 1 matchEnd

/-- The per-class-match body of `_extract_dart_chunks`: documentation
from the `///` lines between the start of the match's line and the match
start, the class body located by the brace loop, the code hard-truncated
to `max_code_length` characters with the marker `"\n// ... (truncated)"`
appended when cut, the documentation hard-truncated to
`max_doc_length`. -/
def dartClassChunk (cfg : VectorizationConfig) (content : List Char)
    (relPath className : String) (start matchEnd : Nat) : DocumentChunk :=
  let docu := dartDocString content (lineStartBefore content start) start
  let classEnd := dartClassEnd content matchEnd
  let codeCut :=
    String.mk ((content.take (min classEnd (start + cfg.max_code_length))).drop start)
  let code := if start + cfg.max_code_length < classEnd
    then codeCut ++ "\n// ... (truncated)" else codeCut
  { type := "class", name := className, file_path := relPath
  , documentation := pyTake cfg.max_doc_length docu
  , code := code, signature := "class " ++ className
  , metadata := { type := "class", name := className, file_path := relPath
                , signature := "class " ++ className, code := code
                , line_start := some (lineNumberAt content start)
                , line_end := some (lineNumberAt content classEnd) } }

/-- The per-function-match body of `_extract_dart_chunks`:
documentation as for classes, empty code, `line_start` only (no
`line_end`); the regex-derived signature text is a parameter, stripped
as in the source. -/
def dartFunctionChunk (cfg : VectorizationConfig) (content : List Char)
    (relPath funcName sigText : String) (start : Nat) : DocumentChunk :=
  let docu := dartDocString content (lineStartBefore content start) start
  { type := "function", name := funcName, file_path := relPath
  , documentation := pyTake cfg.max_doc_length docu
  , code := "", signature := pyStrip sigText
  , metadata := { type := "function", name := funcName, file_path := relPath
                , signature := pyStrip sigText, code := ""
                , line_start := some (lineNumberAt content start)
                , line_end := none } }

lemma pyTake_length_le (n : Nat) (s : String) : (pyTake n s).length ≤ n := by
  show (s.data.take n).length ≤ n
  rw [List.length_take]
  omega

lemma lineNumberAt_mono (content : List Char) {a b : Nat} (h : a ≤ b) :
    lineNumberAt content a ≤ lineNumberAt content b := by
  unfold lineNumberAt
  have h1 : content.take a = (content.take b).take a := by
    rw [List.take_take, Nat.min_eq_left h]
  rw [h1]
  exact Nat.add_le_add_right ((List.take_sublist a (content.take b)).count_le '\n') 1

lemma nbAux_ge (level : Nat) : ∀ (ls : List String) (j : Nat), j ≤ nbAux level ls j := by
  intro ls
  induction ls with
  | nil => intro j; exact Nat.le_refl j
  | cons l rest ih =>
    intro j
    unfold nbAux
    cases hp : parseHeading l with
    | none =>
      simp only [hp]
      exact Nat.le_trans (Nat.le_succ j) (ih (j + 1))
    | some lt =>
      obtain ⟨lv, t⟩ := lt
      simp only [hp]
      by_cases hlv : lv ≤ level
      · simp [hlv]
      · simp only [hlv, if_false]
        exact Nat.le_trans (Nat.le_succ j) (ih (j + 1))

lemma dartClassEndAux_ge : ∀ (rest : List Char) (pos : Nat) (bc : Int) (ce : Nat),
    ce ≤ pos → ce ≤ dartClassEndAux rest pos bc ce := by
  intro rest
  induction rest with
  | nil => intro pos bc ce _; exact Nat.le_refl ce
  | cons c rs ih =>
    intro pos bc ce h
    unfold dartClassEndAux
    by_cases hbc : bc ≤ 0
    · rw [if_pos hbc]
    · rw [if_neg hbc]
      dsimp only
      by_cases hz : (if c = '{' then bc + 1 else if c = '}' then bc - 1 else bc) = 0
      · rw [if_pos hz]
        exact Nat.le_trans (Nat.le_trans h (Nat.le_succ pos))
          (ih (pos + 1) _ (pos + 1) (Nat.le_refl _))
      · rw [if_neg hz]
        exact ih (pos + 1) _ ce (Nat.le_trans h (Nat.le_succ pos))

lemma dartClassEnd_ge (content : List Char) (matchEnd : Nat) :
    matchEnd ≤ dartClassEnd content matchEnd :=
  dartClassEndAux_ge (content.drop matchEnd) matchEnd 1 matchEnd (Nat.le_refl _)

lemma mdChunkAt_spec {cfg : VectorizationConfig} {relPath : String}
    {lines : List String} {i : Nat} {c : DocumentChunk}
    (h : mdChunkAt cfg relPath lines i = some c) :
    ∃ level body,
      c.documentation = pyTake cfg.max_doc_length body ∧
      c.code = "" ∧ c.file_path = relPath ∧ c.metadata.file_path = relPath ∧
      c.metadata.line_start = some (i + 1) ∧
      c.metadata.line_end = some (nextBoundary lines level (i + 1)) := by
  unfold mdChunkAt at h
  split at h
  · exact absurd h (by simp)
  · split at h
    · exact absurd h (by simp)
    · dsimp only at h
      split at h
      · exact absurd h (by simp)
      · simp only [Option.some.injEq] at h
        subst h
        exact ⟨_, _, rfl, rfl, rfl, rfl, rfl, rfl⟩

lemma rustChunkAt_spec {content : List Char} {relPath name matchText ctype : String}
    {startPos : Nat} {c : DocumentChunk}
    (h : rustChunkAt content relPath name matchText ctype startPos = some c) :
    ∃ e,
      c.file_path = relPath ∧ c.metadata.file_path = relPath ∧
      c.metadata.line_start = some (lineNumberAt content startPos) ∧
      c.metadata.line_end = some (lineNumberAt content (startPos + e)) ∧
      c.code = String.mk ((content.take (startPos + e)).drop startPos) := by
  unfold rustChunkAt at h
  split at h
  · exact absurd h (by simp)
  · simp only [Option.some.injEq] at h
    subst h
    exact ⟨_, rfl, rfl, rfl, rfl, rfl⟩

lemma tsChunkAt_spec {content : List Char} {relPath name matchText ctype : String}
    {startPos : Nat} {c : DocumentChunk}
    (h : tsChunkAt content relPath name matchText ctype startPos = some c) :
    ∃ e,
      c.file_path = relPath ∧ c.metadata.file_path = relPath ∧
      c.metadata.line_start = some (lineNumberAt content startPos) ∧
      c.metadata.line_end = some (lineNumberAt content (startPos + e)) := by
  unfold tsChunkAt at h
  dsimp only at h
  split at h
  · exact absurd h (by simp)
  · simp only [Option.some.injEq] at h
    subst h
    exact ⟨_, rfl, rfl, rfl, rfl⟩

lemma dartClassChunk_code_le (cfg : VectorizationConfig) (content : List Char)
    (relPath className : String) (start matchEnd : Nat) :
    (dartClassChunk cfg content relPath className start matchEnd).code.length
      ≤ cfg.max_code_length + 19 := by
  unfold dartClassChunk
  dsimp only
  have hcut :
      (String.mk ((content.take
          (min (dartClassEnd content matchEnd) (start + cfg.max_code_length))).drop
            start)).length ≤ cfg.max_code_length := by
    show ((content.take _).drop start).length ≤ _
    rw [List.length_drop, List.length_take]
    omega
  by_cases hc : start + cfg.max_code_length < dartClassEnd content matchEnd
  · rw [if_pos hc, String.length_append]
    have hm : ("\n// ... (truncated)" : String).length = 19 := by decide
    omega
  · rw [if_neg hc]
    omega

/-- The Rust input of the C2 counterexample: a 39-character function
whose body is never truncated by the Rust extractor. -/
def c2Input : String := "fn f() \x7baaaaaaaaaaaaaaaaaaaaaaaaaaaaaa\x7d"

/-- C2 counterexample: with `max_code_length = 5` the Rust extractor
still emits the chunk with its full 39-character code block, exceeding
`max_code_length + 19` (19 is the length of the truncation marker
`"\n// ... (truncated)"`): the Rust/JS/TS extractors apply no truncation
at all, so the claimed law fails for them. -/
theorem C2_rust_code_untruncated_cex :
    (rustChunkAt c2Input.data "src/lib.rs" "f" "fn f() \x7b" "function" 0).map
        (fun c => c.code.length) = some 39 ∧
    ({ defaultConfig with max_code_length := 5 } : VectorizationConfig).max_code_length
        + ("\n// ... (truncated)" : String).length < 39 :=
  ⟨by decide, by decide⟩

/-- C2 amended: the truncation laws hold for the chunks built by the
Dart and Markdown extractors — `len(documentation) ≤ max_doc_length` and
`len(code) ≤ max_code_length + 19` (the truncation marker length) — and
JSON-extractor chunks satisfy `len(code) ≤ max_code_length`; the
Rust/JS/TS extractors apply no truncation (see the counterexample), and
the JSON extractor does not truncate documentation. -/
theorem C2_truncation_laws_amended :
    (∀ (cfg : VectorizationConfig) (content : List Char)
        (relPath className : String) (start matchEnd : Nat),
      (dartClassChunk cfg content relPath className start matchEnd).documentation.length
          ≤ cfg.max_doc_length ∧
      (dartClassChunk cfg content relPath className start matchEnd).code.length
          ≤ cfg.max_code_length + 19) ∧
    (∀ (cfg : VectorizationConfig) (content : List Char)
        (relPath funcName sigText : String) (start : Nat),
      (dartFunctionChunk cfg content relPath funcName sigText start).documentation.length
          ≤ cfg.max_doc_length ∧
      (dartFunctionChunk cfg content relPath funcName sigText start).code.length
          ≤ cfg.max_code_length + 19) ∧
    (∀ (cfg : VectorizationConfig) (relPath content : String) (c : DocumentChunk),
      c ∈ extractMarkdownChunks cfg relPath content →
      c.documentation.length ≤ cfg.max_doc_length ∧
      c.code.length ≤ cfg.max_code_length + 19) ∧
    (∀ (dumps : Json → String) (cfg : VectorizationConfig) (stem relPath : String)
        (doc : Json) (c : DocumentChunk),
      c ∈ extractJsonChunks dumps cfg stem relPath doc →
      c.code.length ≤ cfg.max_code_length) := by
  refine ⟨?_, ?_, ?_, ?_⟩
  · intro cfg content relPath className start matchEnd
    refine ⟨?_, dartClassChunk_code_le cfg content relPath className start matchEnd⟩
    exact pyTake_length_le _ _
  · intro cfg content relPath funcName sigText start
    exact ⟨pyTake_length_le _ _, Nat.zero_le _⟩
  · intro cfg relPath content c hc
    unfold extractMarkdownChunks at hc
    rw [List.mem_filterMap] at hc
    obtain ⟨i, _, hsome⟩ := hc
    obtain ⟨level, body, hdoc, hcode, _⟩ := mdChunkAt_spec hsome
    rw [hdoc, hcode]
    exact ⟨pyTake_length_le _ _, Nat.zero_le _⟩
  · intro dumps cfg stem relPath doc c hc
    cases doc with
    | jobj fields =>
      unfold extractJsonChunks at hc
      rw [List.mem_cons] at hc
      cases hc with
      | inl hmain => rw [hmain]; exact pyTake_length_le _ _
      | inr hdefs =>
        split at hdefs
        · rw [List.mem_filterMap] at hdefs
          obtain ⟨dv, _, hsome⟩ := hdefs
          split at hsome
          · split at hsome
            · simp only [Option.some.injEq] at hsome
              subst hsome
              exact pyTake_length_le _ _
            · exact absurd hsome (by simp)
          · exact absurd hsome (by simp)
        · exact absurd hdefs (by simp)
    | jnull => exact absurd hc (by simp [extractJsonChunks])
    | jbool b => exact absurd hc (by simp [extractJsonChunks])
    | jnum n => exact absurd hc (by simp [extractJsonChunks])
    | jstr s => exact absurd hc (by simp [extractJsonChunks])
    | jarr xs => exact absurd hc (by simp [extractJsonChunks])

/-- Witness for C2 amended: the Dart, Markdown and JSON bounds
instantiated at concrete inputs, with the membership hypotheses
discharged by evaluation. -/
theorem C2_truncation_laws_amended_witness :
    (dartClassChunk defaultConfig "class A \x7b\x7d".data "lib/a.dart" "A" 0 9).code.length
        ≤ defaultConfig.max_code_length + 19 ∧
    (dartFunctionChunk defaultConfig "int f() \x7b\x7d".data "lib/a.dart" "f" "int f()" 0).documentation.length
        ≤ defaultConfig.max_doc_length ∧
    ({ type := "documentation", name := "T", file_path := "README.md",
       documentation := "body", code := "", signature := "T",
       metadata := { type := "documentation", name := "T", file_path := "README.md",
                     signature := "T", code := "",
                     line_start := some 1, line_end := some 2 } } : DocumentChunk).code.length
        ≤ defaultConfig.max_code_length + 19 ∧
    ({ type := "lexicon", name := "foo", file_path := "a.json",
       documentation := "", code := "", signature := "Lexicon: foo",
       metadata := { type := "lexicon", name := "foo", file_path := "a.json",
                     signature := "Lexicon: foo", code := "" } } : DocumentChunk).code.length
        ≤ defaultConfig.max_code_length :=
  ⟨(C2_truncation_laws_amended.1 defaultConfig "class A \x7b\x7d".data "lib/a.dart" "A" 0 9).2,
   (C2_truncation_laws_amended.2.1 defaultConfig "int f() \x7b\x7d".data "lib/a.dart" "f" "int f()" 0).1,
   (C2_truncation_laws_amended.2.2.1 defaultConfig "README.md" "# T\nbody" _ (by decide)).2,
   C2_truncation_laws_amended.2.2.2 (fun _ => "") defaultConfig "foo" "a.json"
     (Json.jobj []) _ (by decide)⟩

/-- The spec's metadata invariant: whenever both line numbers are
present, `line_end ≥ line_start`. -/
def lineInvariant (m : ChunkMetadata) : Prop :=
  ∀ a b, m.line_start = some a → m.line_end = some b → a ≤ b

lemma lineInvariant_of_some {m : ChunkMetadata} {x y : Nat}
    (hs : m.line_start = some x) (he : m.line_end = some y) (hxy : x ≤ y) :
    lineInvariant m := by
  intro a b ha hb
  rw [hs] at ha
  rw [he] at hb
  injection ha with ha
  injection hb with hb
  omega

lemma lineInvariant_of_none {m : ChunkMetadata} (he : m.line_end = none) :
    lineInvariant m := by
  intro a b _ hb
  rw [he] at hb
  exact absurd hb (by simp)

/-- Truthiness test of `isinstance(section_content, (dict, list)) and
section_content` in `_extract_yaml_chunks`: a non-empty mapping or
sequence. -/
def yamlTruthySeq : Json → Bool
  | Json.jobj f => !f.isEmpty
  | Json.jarr xs => !xs.isEmpty
  | _ => false

/-- A per-section chunk of `_extract_yaml_chunks`: `ydump` stands for
`yaml.dump({section_name: section_content}, default_flow_style=False)`
(an external serializer).  No line numbers are set. -/
def yamlSectionChunk (ydump : String → Json → String) (cfg : VectorizationConfig)
    (stem relPath sectionName : String) (sectionVal : Json) : DocumentChunk :=
  { type := "yaml_section", name := stem ++ "." ++ sectionName, file_path := relPath
  , documentation := "Configuration section: " ++ sectionName
  , code := pyTake cfg.max_code_length (ydump sectionName sectionVal)
  , signature := stem ++ "." ++ sectionName
  , metadata := { type := "yaml_section", name := stem ++ "." ++ sectionName
                , file_path := relPath, signature := stem ++ "." ++ sectionName
                , code := pyTake cfg.max_code_length (ydump sectionName sectionVal) } }

/-- Model of `_extract_yaml_chunks` from `vectorizer.py`, after
`yaml.safe_load` succeeded with value `parsed` (parsed YAML data has the
same shapes as parsed JSON, so the `Json` type serves for it).
`contentStr` is the raw file text, `stem` is `file_path.stem` (the
`file_id`), `fileName` is `file_path.name`.  The whole-file chunk is
always emitted; section chunks only when the parsed value is a mapping,
one per key whose value is a non-empty mapping or sequence.  No line
numbers are set anywhere. -/
def extractYamlChunks (ydump : String → Json → String) (cfg : VectorizationConfig)
    (contentStr stem fileName relPath : String) (parsed : Json) : List DocumentChunk :=
  ({ type := "yaml_config", name := stem, file_path := relPath
   , documentation := "YAML configuration file: " ++ fileName
   , code := pyTake cfg.max_code_length contentStr
   , signature := "YAML Config: " ++ stem
   , metadata := { type := "yaml_config", name := stem, file_path := relPath
                 , signature := "YAML Config: " ++ stem
                 , code := pyTake cfg.max_code_length contentStr } } : DocumentChunk)
    :: (match parsed with
        | Json.jobj fields =>
          fields.filterMap (fun sv =>
            if yamlTruthySeq sv.2 then
              some (yamlSectionChunk ydump cfg stem relPath sv.1 sv.2)
            else none)
        | _ => [])

/-- A per-function chunk of `_extract_svelte_chunks`: the regex match
text serves as signature and code; no line numbers are set. -/
def svelteFunctionChunk (relPath name matchText ctype : String) : DocumentChunk :=
  { type := ctype, name := name, file_path := relPath
  , documentation := "Svelte component function: " ++ name
  , code := matchText, signature := matchText
  , metadata := { type := ctype, name := name, file_path := relPath
                , signature := matchText, code := matchText } }

/-- The whole-component chunk of `_extract_svelte_chunks`: code is the
file text capped at 500 characters with an ellipsis when longer (the
metadata keeps the full text); no line numbers are set. -/
def svelteComponentChunk (relPath stem content : String) : DocumentChunk :=
  { type := "component", name := stem, file_path := relPath
  , documentation := "Svelte component: " ++ stem
  , code := if 500 < content.length then pyTake 500 content ++ "..." else content
  , signature := "<" ++ stem ++ ">"
  , metadata := { type := "component", name := stem, file_path := relPath
                , signature := "<" ++ stem ++ ">", code := content } }

/-- Model of `_extract_svelte_chunks` from `vectorizer.py`: one chunk
per function-pattern match inside the `<script>` block (the regex
machinery is external; its outputs — name, match text, kind — are the
`fnMatches` parameter, empty when there is no script block), followed by
the whole-component chunk. -/
def extractSvelteChunks (relPath stem content : String)
    (fnMatches : List (String × String × String)) : List DocumentChunk :=
  (fnMatches.map (fun m => svelteFunctionChunk relPath m.1 m.2.1 m.2.2))
    ++ [svelteComponentChunk relPath stem content]

/-- A per-script chunk of `_extract_html_chunks`: the inner script text
is stripped and an empty script is skipped; `i` is the 0-based index of
the match among all script matches.  No line numbers are set. -/
def htmlScriptChunk (relPath : String) (i : Nat) (scriptText : String) :
    Option DocumentChunk :=
  if pyStrip scriptText = "" then none
  else
    some { type := "script", name := "script_" ++ toString (i + 1)
         , file_path := relPath
         , documentation := "JavaScript code from HTML file"
         , code := pyStrip scriptText, signature := "<script>"
         , metadata := { type := "script", name := "script_" ++ toString (i + 1)
                       , file_path := relPath, signature := "<script>"
                       , code := pyStrip scriptText } }

/-- The whole-file chunk of `_extract_html_chunks`: code capped at 500
characters with an ellipsis when longer (the metadata keeps the full
text); no line numbers are set. -/
def htmlFileChunk (relPath stem content : String) : DocumentChunk :=
  { type := "html", name := stem, file_path := relPath
  , documentation := "HTML file: " ++ stem
  , code := if 500 < content.length then pyTake 500 content ++ "..." else content
  , signature := stem ++ ".html"
  , metadata := { type := "html", name := stem, file_path := relPath
                , signature := stem ++ ".html", code := content } }

/-- Model of `_extract_html_chunks` from `vectorizer.py`: one chunk per
`<script>` match with non-blank inner text (the regex is external; the
matches' inner texts are the `scriptMatches` parameter, enumerated as in
the source), followed by the whole-file chunk. -/
def extractHtmlChunks (relPath stem content : String)
    (scriptMatches : List String) : List DocumentChunk :=
  (((List.range scriptMatches.length).zip scriptMatches).filterMap
      (fun p => htmlScriptChunk relPath p.1 p.2))
    ++ [htmlFileChunk relPath stem content]

/-- C9: every chunk built by every extractor satisfies the metadata
invariant — `line_end ≥ line_start` whenever both are present — and both
the chunk's and its metadata's `file_path` equal the repository-relative
path the extractor was given.  All ten dialects are covered: the Dart
class and function builders, the Markdown extractor (also run on MDX
files), the Rust builder (its loop is duplicated verbatim by the JS
extractor), the TypeScript builder, and the JSON, YAML, Svelte and HTML
extractors, whose chunks carry no line numbers. -/
theorem C9_metadata_invariant :
    (∀ (cfg : VectorizationConfig) (content : List Char)
        (relPath className : String) (start matchEnd : Nat), start ≤ matchEnd →
      lineInvariant (dartClassChunk cfg content relPath className start matchEnd).metadata ∧
      (dartClassChunk cfg content relPath className start matchEnd).file_path = relPath ∧
      (dartClassChunk cfg content relPath className start matchEnd).metadata.file_path = relPath) ∧
    (∀ (cfg : VectorizationConfig) (content : List Char)
        (relPath funcName sigText : String) (start : Nat),
      (dartFunctionChunk cfg content relPath funcName sigText start).metadata.line_end = none ∧
      (dartFunctionChunk cfg content relPath funcName sigText start).file_path = relPath ∧
      (dartFunctionChunk cfg content relPath funcName sigText start).metadata.file_path = relPath) ∧
    (∀ (cfg : VectorizationConfig) (relPath content : String) (c : DocumentChunk),
      c ∈ extractMarkdownChunks cfg relPath content →
      lineInvariant c.metadata ∧ c.file_path = relPath ∧ c.metadata.file_path = relPath) ∧
    (∀ (content : List Char) (relPath name matchText ctype : String)
        (startPos : Nat) (c : DocumentChunk),
      rustChunkAt content relPath name matchText ctype startPos = some c →
      lineInvariant c.metadata ∧ c.file_path = relPath ∧ c.metadata.file_path = relPath) ∧
    (∀ (content : List Char) (relPath name matchText ctype : String)
        (startPos : Nat) (c : DocumentChunk),
      tsChunkAt content relPath name matchText ctype startPos = some c →
      lineInvariant c.metadata ∧ c.file_path = relPath ∧ c.metadata.file_path = relPath) ∧
    (∀ (dumps : Json → String) (cfg : VectorizationConfig) (stem relPath : String)
        (doc : Json) (c : DocumentChunk),
      c ∈ extractJsonChunks dumps cfg stem relPath doc →
      c.metadata.line_start = none ∧ c.metadata.line_end = none ∧
      c.file_path = relPath ∧ c.metadata.file_path = relPath) ∧
    (∀ (ydump : String → Json → String) (cfg : VectorizationConfig)
        (contentStr stem fileName relPath : String) (parsed : Json) (c : DocumentChunk),
      c ∈ extractYamlChunks ydump cfg contentStr stem fileName relPath parsed →
      c.metadata.line_start = none ∧ c.metadata.line_end = none ∧
      c.file_path = relPath ∧ c.metadata.file_path = relPath) ∧
    (∀ (relPath stem content : String) (fnMatches : List (String × String × String))
        (c : DocumentChunk),
      c ∈ extractSvelteChunks relPath stem content fnMatches →
      c.metadata.line_start = none ∧ c.metadata.line_end = none ∧
      c.file_path = relPath ∧ c.metadata.file_path = relPath) ∧
    (∀ (relPath stem content : String) (scriptMatches : List String)
        (c : DocumentChunk),
      c ∈ extractHtmlChunks relPath stem content scriptMatches →
      c.metadata.line_start = none ∧ c.metadata.line_end = none ∧
      c.file_path = relPath ∧ c.metadata.file_path = relPath) := by
  refine ⟨?_, ?_, ?_, ?_, ?_, ?_, ?_, ?_, ?_⟩
  · intro cfg content relPath className start matchEnd h
    refine ⟨lineInvariant_of_some rfl rfl ?_, rfl, rfl⟩
    exact lineNumberAt_mono content (Nat.le_trans h (dartClassEnd_ge content matchEnd))
  · intro cfg content relPath funcName sigText start
    exact ⟨rfl, rfl, rfl⟩
  · intro cfg relPath content c hc
    unfold extractMarkdownChunks at hc
    rw [List.mem_filterMap] at hc
    obtain ⟨i, _, hsome⟩ := hc
    obtain ⟨level, body, _, _, hfp, hmfp, hls, hle⟩ := mdChunkAt_spec hsome
    refine ⟨lineInvariant_of_some hls hle ?_, hfp, hmfp⟩
    exact nbAux_ge level _ (i + 1)
  · intro content relPath name matchText ctype startPos c hsome
    obtain ⟨e, hfp, hmfp, hls, hle, _⟩ := rustChunkAt_spec hsome
    refine ⟨lineInvariant_of_some hls hle ?_, hfp, hmfp⟩
    exact lineNumberAt_mono content (Nat.le_add_right startPos e)
  · intro content relPath name matchText ctype startPos c hsome
    obtain ⟨e, hfp, hmfp, hls, hle⟩ := tsChunkAt_spec hsome
    refine ⟨lineInvariant_of_some hls hle ?_, hfp, hmfp⟩
    exact lineNumberAt_mono content (Nat.le_add_right startPos e)
  · intro dumps cfg stem relPath doc c hc
    cases doc with
    | jobj fields =>
      unfold extractJsonChunks at hc
      rw [List.mem_cons] at hc
      cases hc with
      | inl hmain => rw [hmain]; exact ⟨rfl, rfl, rfl, rfl⟩
      | inr hdefs =>
        split at hdefs
        · rw [List.mem_filterMap] at hdefs
          obtain ⟨dv, _, hsome⟩ := hdefs
          split at hsome
          · split at hsome
            · simp only [Option.some.injEq] at hsome
              subst hsome
              exact ⟨rfl, rfl, rfl, rfl⟩
            · exact absurd hsome (by simp)
          · exact absurd hsome (by simp)
        · exact absurd hdefs (by simp)
    | jnull => exact absurd hc (by simp [extractJsonChunks])
    | jbool b => exact absurd hc (by simp [extractJsonChunks])
    | jnum n => exact absurd hc (by simp [extractJsonChunks])
    | jstr s => exact absurd hc (by simp [extractJsonChunks])
    | jarr xs => exact absurd hc (by simp [extractJsonChunks])
  · intro ydump cfg contentStr stem fileName relPath parsed c hc
    unfold extractYamlChunks at hc
    rw [List.mem_cons] at hc
    cases hc with
    | inl hmain => rw [hmain]; exact ⟨rfl, rfl, rfl, rfl⟩
    | inr hsec =>
      split at hsec
      · rw [List.mem_filterMap] at hsec
        obtain ⟨sv, _, hsome⟩ := hsec
        split at hsome
        · simp only [Option.some.injEq] at hsome
          subst hsome
          exact ⟨rfl, rfl, rfl, rfl⟩
        · exact absurd hsome (by simp)
      · exact absurd hsec (by simp)
  · intro relPath stem content fnMatches c hc
    unfold extractSvelteChunks at hc
    rw [List.mem_append] at hc
    cases hc with
    | inl hfn =>
      rw [List.mem_map] at hfn
      obtain ⟨m, _, hm⟩ := hfn
      rw [← hm]
      exact ⟨rfl, rfl, rfl, rfl⟩
    | inr hcomp =>
      rw [List.mem_singleton] at hcomp
      rw [hcomp]
      exact ⟨rfl, rfl, rfl, rfl⟩
  · intro relPath stem content scriptMatches c hc
    unfold extractHtmlChunks at hc
    rw [List.mem_append] at hc
    cases hc with
    | inl hs =>
      rw [List.mem_filterMap] at hs
      obtain ⟨p, _, hsome⟩ := hs
      unfold htmlScriptChunk at hsome
      split at hsome
      · exact absurd hsome (by simp)
      · simp only [Option.some.injEq] at hsome
        subst hsome
        exact ⟨rfl, rfl, rfl, rfl⟩
    | inr hfile =>
      rw [List.mem_singleton] at hfile
      rw [hfile]
      exact ⟨rfl, rfl, rfl, rfl⟩

/-- The markdown chunk the C9 witness instantiates. -/
def c9MdChunk : DocumentChunk :=
  { type := "documentation", name := "T", file_path := "README.md",
    documentation := "body", code := "", signature := "T",
    metadata := { type := "documentation", name := "T", file_path := "README.md",
                  signature := "T", code := "",
                  line_start := some 1, line_end := some 2 } }

/-- The Rust chunk the C9 witness instantiates. -/
def c9RustChunk : DocumentChunk :=
  { type := "function", name := "f", file_path := "src/lib.rs",
    documentation := "", code := "fn f() \x7b\x7d", signature := "fn f() \x7b",
    metadata := { type := "function", name := "f", file_path := "src/lib.rs",
                  signature := "fn f() \x7b", code := "fn f() \x7b\x7d",
                  line_start := some 1, line_end := some 1 } }

/-- The TypeScript chunk the C9 witness instantiates. -/
def c9TsChunk : DocumentChunk :=
  { type := "type", name := "T", file_path := "src/a.ts",
    documentation := "", code := "type T = x;", signature := "type T",
    metadata := { type := "type", name := "T", file_path := "src/a.ts",
                  signature := "type T", code := "type T = x;",
                  line_start := some 1, line_end := some 1 } }

/-- The JSON chunk the C9 witness instantiates. -/
def c9JsonChunk : DocumentChunk :=
  { type := "lexicon", name := "foo", file_path := "a.json",
    documentation := "", code := "", signature := "Lexicon: foo",
    metadata := { type := "lexicon", name := "foo", file_path := "a.json",
                  signature := "Lexicon: foo", code := "" } }

/-- The YAML chunk the C9 witness instantiates. -/
def c9YamlChunk : DocumentChunk :=
  { type := "yaml_config", name := "pubspec", file_path := "pubspec.yaml",
    documentation := "YAML configuration file: pubspec.yaml", code := "k: v",
    signature := "YAML Config: pubspec",
    metadata := { type := "yaml_config", name := "pubspec",
                  file_path := "pubspec.yaml",
                  signature := "YAML Config: pubspec", code := "k: v" } }

/-- The Svelte chunk the C9 witness instantiates. -/
def c9SvelteChunk : DocumentChunk :=
  { type := "component", name := "App", file_path := "src/App.svelte",
    documentation := "Svelte component: App", code := "<div/>",
    signature := "<App>",
    metadata := { type := "component", name := "App",
                  file_path := "src/App.svelte",
                  signature := "<App>", code := "<div/>" } }

/-- The HTML chunk the C9 witness instantiates. -/
def c9HtmlChunk : DocumentChunk :=
  { type := "html", name := "index", file_path := "index.html",
    documentation := "HTML file: index", code := "<p/>",
    signature := "index.html",
    metadata := { type := "html", name := "index", file_path := "index.html",
                  signature := "index.html", code := "<p/>" } }

/-- Witness for C9: each conjunct instantiated at a concrete input with
its hypothesis discharged by evaluation. -/
theorem C9_metadata_invariant_witness :
    (1 : Nat) ≤ 1 ∧
    (dartClassChunk defaultConfig "class A \x7b\x7d".data "lib/a.dart" "A" 0 9).file_path
        = "lib/a.dart" ∧
    (dartFunctionChunk defaultConfig "int f()".data "lib/a.dart" "f" "int f()" 0).metadata.line_end
        = none ∧
    c9MdChunk.file_path = "README.md" ∧
    c9RustChunk.metadata.file_path = "src/lib.rs" ∧
    c9TsChunk.metadata.file_path = "src/a.ts" ∧
    c9JsonChunk.metadata.line_start = none ∧
    c9YamlChunk.metadata.line_start = none ∧
    c9SvelteChunk.metadata.line_end = none ∧
    c9HtmlChunk.file_path = "index.html" := by
  refine ⟨?_, ?_, ?_, ?_, ?_, ?_, ?_, ?_, ?_, ?_⟩
  · exact (C9_metadata_invariant.1 defaultConfig "class A \x7b\x7d".data "lib/a.dart" "A" 0 9
      (by decide)).1 1 1 (by decide) (by decide)
  · exact (C9_metadata_invariant.1 defaultConfig "class A \x7b\x7d".data "lib/a.dart" "A" 0 9
      (by decide)).2.1
  · exact (C9_metadata_invariant.2.1 defaultConfig "int f()".data "lib/a.dart" "f" "int f()" 0).1
  · exact (C9_metadata_invariant.2.2.1 defaultConfig "README.md" "# T\nbody" c9MdChunk
      (by decide)).2.1
  · exact (C9_metadata_invariant.2.2.2.1 "fn f() \x7b\x7d".data "src/lib.rs" "f" "fn f() \x7b"
      "function" 0 c9RustChunk (by decide)).2.2
  · exact (C9_metadata_invariant.2.2.2.2.1 "type T = x;".data "src/a.ts" "T" "type T"
      "type" 0 c9TsChunk (by decide)).2.2
  · exact (C9_metadata_invariant.2.2.2.2.2.1 (fun _ => "") defaultConfig "foo" "a.json"
      (Json.jobj []) c9JsonChunk (by decide)).1
  · exact (C9_metadata_invariant.2.2.2.2.2.2.1 (fun _ _ => "") defaultConfig "k: v" "pubspec"
      "pubspec.yaml" "pubspec.yaml" (Json.jobj []) c9YamlChunk (by decide)).1
  · exact (C9_metadata_invariant.2.2.2.2.2.2.2.1 "src/App.svelte" "App" "<div/>" []
      c9SvelteChunk (by decide)).2.1
  · exact (C9_metadata_invariant.2.2.2.2.2.2.2.2 "index.html" "index" "<p/>" []
      c9HtmlChunk (by decide)).2.2.1

/-- The Qdrant payload assembled per chunk in
`_vectorize_and_upload_with_details`. -/
structure QdrantPayload where
  document : String
  type : String
  name : String
  file_path : String
  signature : String
  documentation : String
  code : String
  information : String
  metadata : ChunkMetadata
deriving DecidableEq

/-- A Qdrant point: id, vector and payload (the vector's numeric content
is never inspected by the pipeline and modelled as a list of integers). -/
structure PointStruct where
  id : String
  vector : List Int
  payload : QdrantPayload
deriving DecidableEq

/-- Payload construction from a chunk (the dict literal of lines
889-899). -/
def mkPayload (c : DocumentChunk) : QdrantPayload :=
  { document := c.get_embedding_text
  , type := c.type
  , name := c.name
  , file_path := c.file_path
  , signature := c.signature
  , documentation := c.documentation
  , code := c.code
  , information := c.get_information_text
  , metadata := c.metadata }

/-- Point construction for one batch: zip chunks with their embeddings
in order, hash the id string of each chunk. -/
def mkPoints (md5 : String → String) (batch : List DocumentChunk)
    (embeds : List (List Int)) : List PointStruct :=
  (batch.zip embeds).map
    (fun p => { id := pointId md5 p.1, vector := p.2, payload := mkPayload p.1 })

/-- The tenacity retry loop of `_upload_batch`
(`stop_after_attempt(3)`): run the attempt, on failure try again, up to
the given number of attempts in total; the last failure is re-raised.
`f` maps the attempt index to its outcome. -/
def retryAux (f : Nat → Except String Unit) : Nat → Nat → Except String Unit
  | _, 0 => Except.error ""
  | i, 1 => f i
  | i, n + 2 =>
    match f i with
    | Except.ok u => Except.ok u
    | Except.error _ => retryAux f (i + 1) (n + 1)

/-- Model of `_upload_batch` under its retry policy: up to 3 attempts. -/
def uploadBatchRetry (f : Nat → Except String Unit) : Except String Unit :=
  retryAux f 0 3

/-- Structural core of the batch partition, with the list length as
explicit fuel so the recursion (each step drops `bs ≥ 1` elements) is
structural and evaluates by reduction. -/
def toBatchesGo {α : Type} (bs : Nat) : Nat → List α → List (List α)
  | _, [] => []
  | 0, _ :: _ => []
  | fuel + 1, x :: xs =>
    match bs with
    | 0 => []
    | b + 1 => ((x :: xs).take (b + 1)) :: toBatchesGo bs fuel ((x :: xs).drop (b + 1))

/-- The batch partition `chunks[batch_idx : batch_idx + batch_size]` of
the loop `for batch_idx in range(0, len(chunks), batch_size)`.  (With
`batch_size = 0` Python's `range` raises; that configuration produces no
batches here.) -/
def toBatches {α : Type} (bs : Nat) (l : List α) : List (List α) :=
  toBatchesGo bs l.length l

/-- The error string appended to run stats when a batch fails
(`f"Failed to process batch {batch_num}: {e}"`). -/
def failMsg (n : Nat) (e : String) : String :=
  "Failed to process batch " ++ toString n ++ ": " ++ e

/-- Run stats and trace of the upload loop of
`_vectorize_and_upload_with_details`: the uploaded count and error list
it accumulates, plus the embedding calls and upsert attempts it makes
(in order).  The memory-pressure pause (lines 865-868) only sleeps and
is omitted. -/
structure UploadOutcome where
  uploaded : Nat
  errors : List String
  embedCalls : List (List String)
  upserts : List (List PointStruct)
deriving DecidableEq

/-- The batch loop of `_vectorize_and_upload_with_details`: for each
batch compute the embedding texts, call the external embedding function
once per batch, build the points, upsert with retry; on any failure
append the batch error and continue with the next batch.  `n` is the
1-based batch number. -/
def runBatches (md5 : String → String)
    (embed : List String → Except String (List (List Int)))
    (upsert : List PointStruct → Nat → Except String Unit) :
    List (List DocumentChunk) → Nat → UploadOutcome
  | [], _ => { uploaded := 0, errors := [], embedCalls := [], upserts := [] }
  | b :: rest, n =>
    let texts := b.map DocumentChunk.get_embedding_text
    let r := runBatches md5 embed upsert rest (n + 1)
    match embed texts with
    | Except.error e =>
      { uploaded := r.uploaded, errors := failMsg n e :: r.errors
      , embedCalls := texts :: r.embedCalls, upserts := r.upserts }
    | Except.ok vs =>
      let points := mkPoints md5 b vs
      match uploadBatchRetry (upsert points) with
      | Except.ok _ =>
        { uploaded := points.length + r.uploaded, errors := r.errors
        , embedCalls := texts :: r.embedCalls, upserts := points :: r.upserts }
      | Except.error e =>
        { uploaded := r.uploaded, errors := failMsg n e :: r.errors
        , embedCalls := texts :: r.embedCalls, upserts := points :: r.upserts }

/-- Model of `_vectorize_and_upload_with_details`: partition into batches of
`config.batch_size` and run the batch loop from batch number 1. -/
def vectorizePipeline (md5 : String → String)
    (embed : List String → Except String (List (List Int)))
    (upsert : List PointStruct → Nat → Except String Unit)
    (cfg : VectorizationConfig) (chunks : List DocumentChunk) : UploadOutcome :=
  runBatches md5 embed upsert (toBatches cfg.batch_size chunks) 1

/-- Outcome of one batch: `none` when embedding and (retried) upsert
both succeed, otherwise the exception message. -/
def batchErr (md5 : String → String)
    (embed : List String → Except String (List (List Int)))
    (upsert : List PointStruct → Nat → Except String Unit)
    (b : List DocumentChunk) : Option String :=
  match embed (b.map DocumentChunk.get_embedding_text) with
  | Except.error e => some e
  | Except.ok vs =>
    match uploadBatchRetry (upsert (mkPoints md5 b vs)) with
    | Except.ok _ => none
    | Except.error e => some e

/-- Follows the spec's words: one error naming each failed batch, in
batch order, numbered from `n`. -/
def expectedErrors (md5 : String → String)
    (embed : List String → Except String (List (List Int)))
    (upsert : List PointStruct → Nat → Except String Unit) :
    List (List DocumentChunk) → Nat → List String
  | [], _ => []
  | b :: rest, n =>
    match batchErr md5 embed upsert b with
    | some e => failMsg n e :: expectedErrors md5 embed upsert rest (n + 1)
    | none => expectedErrors md5 embed upsert rest (n + 1)

lemma expectedErrors_cons (md5 : String → String)
    (embed : List String → Except String (List (List Int)))
    (upsert : List PointStruct → Nat → Except String Unit)
    (b : List DocumentChunk) (rest : List (List DocumentChunk)) (n : Nat) :
    expectedErrors md5 embed upsert (b :: rest) n
      = match batchErr md5 embed upsert b with
        | some e => failMsg n e :: expectedErrors md5 embed upsert rest (n + 1)
        | none => expectedErrors md5 embed upsert rest (n + 1) := rfl

lemma mkPoints_length (md5 : String → String)
    (embed : List String → Except String (List (List Int)))
    (hEmbed : ∀ ts vs, embed ts = Except.ok vs → vs.length = ts.length)
    (b : List DocumentChunk) (vs : List (List Int))
    (hvs : embed (b.map DocumentChunk.get_embedding_text) = Except.ok vs) :
    (mkPoints md5 b vs).length = b.length := by
  unfold mkPoints
  rw [List.length_map, List.length_zip, hEmbed _ _ hvs, List.length_map]
  exact Nat.min_self _

lemma runBatches_spec (md5 : String → String)
    (embed : List String → Except String (List (List Int)))
    (upsert : List PointStruct → Nat → Except String Unit)
    (hEmbed : ∀ ts vs, embed ts = Except.ok vs → vs.length = ts.length) :
    ∀ (bs : List (List DocumentChunk)) (n : Nat),
      (runBatches md5 embed upsert bs n).embedCalls
          = bs.map (fun b => b.map DocumentChunk.get_embedding_text) ∧
      (runBatches md5 embed upsert bs n).uploaded
          = ((bs.filter (fun b => (batchErr md5 embed upsert b).isNone)).map
              List.length).sum ∧
      (runBatches md5 embed upsert bs n).errors
          = expectedErrors md5 embed upsert bs n := by
  intro bs
  induction bs with
  | nil => intro n; exact ⟨rfl, rfl, rfl⟩
  | cons b rest ih =>
    intro n
    obtain ⟨ih1, ih2, ih3⟩ := ih (n + 1)
    unfold runBatches
    dsimp only
    cases hemb : embed (b.map DocumentChunk.get_embedding_text) with
    | error e =>
      have hbe : batchErr md5 embed upsert b = some e := by
        unfold batchErr
        simp only [hemb]
      have hexp : expectedErrors md5 embed upsert (b :: rest) n
          = failMsg n e :: expectedErrors md5 embed upsert rest (n + 1) := by
        rw [expectedErrors_cons]
        simp only [hbe]
      refine ⟨?_, ?_, ?_⟩
      · simp only [List.map_cons]
        rw [ih1]
      · rw [List.filter_cons, hbe]
        simp only [Option.isNone_some, if_false, Bool.false_eq_true]
        exact ih2
      · rw [hexp, ih3]
    | ok vs =>
      cases hup : uploadBatchRetry (upsert (mkPoints md5 b vs)) with
      | ok u =>
        have hbe : batchErr md5 embed upsert b = none := by
          unfold batchErr
          simp only [hemb, hup]
        have hexp : expectedErrors md5 embed upsert (b :: rest) n
            = expectedErrors md5 embed upsert rest (n + 1) := by
          rw [expectedErrors_cons]
          simp only [hbe]
        simp only [hup]
        refine ⟨?_, ?_, ?_⟩
        · simp only [List.map_cons]
          rw [ih1]
        · rw [List.filter_cons, hbe]
          simp only [Option.isNone_none, if_true]
          simp only [List.map_cons, List.sum_cons]
          rw [ih2, mkPoints_length md5 embed hEmbed b vs hemb]
        · rw [hexp, ih3]
      | error e =>
        have hbe : batchErr md5 embed upsert b = some e := by
          unfold batchErr
          simp only [hemb, hup]
        have hexp : expectedErrors md5 embed upsert (b :: rest) n
            = failMsg n e :: expectedErrors md5 embed upsert rest (n + 1) := by
          rw [expectedErrors_cons]
          simp only [hbe]
        simp only [hup]
        refine ⟨?_, ?_, ?_⟩
        · simp only [List.map_cons]
          rw [ih1]
        · rw [List.filter_cons, hbe]
          simp only [Option.isNone_some, if_false, Bool.false_eq_true]
          exact ih2
        · rw [hexp, ih3]

/-- C5: batch failure isolation.  When the embedding service returns one
vector per input, the pipeline (a) performs the embedding call for EVERY
batch, in order — a failed batch never prevents later batches from being
attempted — (b) uploads exactly the chunks of the batches whose
embedding and (retried) upsert succeed, and (c) appends exactly one
error, naming the batch number, per failed batch. -/
theorem C5_batch_failure_isolation (md5 : String → String)
    (embed : List String → Except String (List (List Int)))
    (upsert : List PointStruct → Nat → Except String Unit)
    (cfg : VectorizationConfig) (chunks : List DocumentChunk)
    (hEmbed : ∀ ts vs, embed ts = Except.ok vs → vs.length = ts.length) :
    (vectorizePipeline md5 embed upsert cfg chunks).embedCalls
        = (toBatches cfg.batch_size chunks).map
            (fun b => b.map DocumentChunk.get_embedding_text) ∧
    (vectorizePipeline md5 embed upsert cfg chunks).uploaded
        = (((toBatches cfg.batch_size chunks).filter
            (fun b => (batchErr md5 embed upsert b).isNone)).map List.length).sum ∧
    (vectorizePipeline md5 embed upsert cfg chunks).errors
        = expectedErrors md5 embed upsert (toBatches cfg.batch_size chunks) 1 :=
  runBatches_spec md5 embed upsert hEmbed (toBatches cfg.batch_size chunks) 1

/-- The embedding stub of the C5 witness: always succeeds with one
vector per input. -/
def c5Embed : List String → Except String (List (List Int)) :=
  fun ts => Except.ok (ts.map (fun _ => [0]))

/-- The upsert stub of the C5 witness: rejects any batch containing the
chunk named `B`, accepts everything else. -/
def c5Upsert : List PointStruct → Nat → Except String Unit :=
  fun pts _ =>
    if pts.any (fun p => p.payload.name == "B") then Except.error "down"
    else Except.ok ()

/-- Batch size 1 for the C5 witness, so the two chunks split into two
batches. -/
def c5Config : VectorizationConfig := { defaultConfig with batch_size := 1 }

/-- The two chunks of the C5 witness. -/
def c5Chunks : List DocumentChunk :=
  [ { type := "class", name := "A", file_path := "a", signature := "class A",
      metadata := { type := "class", name := "A", file_path := "a", signature := "class A" } }
  , { type := "class", name := "B", file_path := "b", signature := "class B",
      metadata := { type := "class", name := "B", file_path := "b", signature := "class B" } } ]

lemma c5Embed_len : ∀ ts vs, c5Embed ts = Except.ok vs → vs.length = ts.length := by
  intro ts vs h
  unfold c5Embed at h
  injection h with h
  rw [← h]
  exact List.length_map _ _

/-- Witness for C5: with two one-chunk batches where only the second's
upsert fails, batch 1 still uploads (count 1), both embedding calls
happen, and exactly one error names batch 2. -/
theorem C5_batch_failure_isolation_witness :
    (vectorizePipeline (fun s => s) c5Embed c5Upsert c5Config c5Chunks).uploaded = 1 ∧
    (vectorizePipeline (fun s => s) c5Embed c5Upsert c5Config c5Chunks).errors
        = [failMsg 2 "down"] ∧
    (vectorizePipeline (fun s => s) c5Embed c5Upsert c5Config c5Chunks).embedCalls.length
        = 2 := by
  have h := C5_batch_failure_isolation (fun s => s) c5Embed c5Upsert c5Config c5Chunks
    c5Embed_len
  refine ⟨?_, ?_, ?_⟩
  · rw [h.2.1]; decide
  · rw [h.2.2]; decide
  · rw [h.1]; decide

/-- C10: the pipeline's behaviour is independent of
`config.store_batch_size`: two configurations differing only in that
field produce identical batch partitions, embedding calls, points,
upsert attempts, uploaded counts and errors, because batching and upload
both read `config.batch_size` and `store_batch_size` is never read. -/
theorem C10_store_batch_size_unused (md5 : String → String)
    (embed : List String → Except String (List (List Int)))
    (upsert : List PointStruct → Nat → Except String Unit)
    (cfg : VectorizationConfig) (s₁ s₂ : Nat) (chunks : List DocumentChunk) :
    vectorizePipeline md5 embed upsert { cfg with store_batch_size := s₁ } chunks
      = vectorizePipeline md5 embed upsert { cfg with store_batch_size := s₂ } chunks ∧
    toBatches ({ cfg with store_batch_size := s₁ } : VectorizationConfig).batch_size chunks
      = toBatches ({ cfg with store_batch_size := s₂ } : VectorizationConfig).batch_size chunks :=
  ⟨rfl, rfl⟩

end DevRag
